import Mathlib

/-!
Verification development for the Advisory & History Subsystem of the
Quantum-Job-Tracker repository: a shallow embedding in Lean 4 of the four
stateful utility modules (`queue_predictor.py`, `backend_recommender.py`,
`historical_analyzer.py`, `notification_manager.py`) together with proofs of
the behavioural properties stated in the specification.

Modelling conventions:
* Python dicts keyed by strings are modelled either as total functions
  `String → List _` defaulting to `[]` (when the code only ever looks up or
  appends under a single key) or as insertion-ordered association lists
  (when the code iterates over the dict, as `get_analytics` does).  For
  states reachable by the recording operations a key is present exactly when
  its list is non-empty, so the guard `k not in d or not d[k]` is modelled by
  `d k = []`.
* Python numbers (`queue_time`, `run_time`, computed averages) are modelled
  as rationals `ℚ`; `int(x)` is truncation toward zero.
* `datetime.now()` is passed in explicitly as a `now` parameter; timestamps
  that are only stored and compared are kept opaque (`String` in the queue
  predictor, `ℚ` seconds in the historical analyzer where arithmetic on them
  is performed).  `strftime` presentation of the estimated start time is
  dropped: the estimate is returned as the absolute time in seconds.
* File persistence (`save_history`, `save_notifications`) and the outbound
  Slack webhook are I/O side effects that do not influence the in-memory
  state; the spec declares persistence failures swallowed, so the embedding
  carries the in-memory state only.
* A Python expression that raises is modelled with `Except`: in particular
  `get_analytics` refers to the undefined name `completed_jops`
  (historical_analyzer.py line 108), which raises `NameError` whenever it is
  evaluated; the embedding returns `Except.error (PyError.nameError _)` on
  exactly the paths where Python would raise.
-/

/-! ## Queue predictor (`utils/queue_predictor.py`) -/

/-- One element of `self.history[backend_name]` as stored by
`record_job_completion`: `{'timestamp': ..., 'job_id': ..., 'queue_time': ...,
'run_time': ...}`. -/
structure QEntry where
  timestamp : String
  job_id : String
  queue_time : ℚ
  run_time : ℚ
deriving DecidableEq

/-- The `self.history` dict of `QueuePredictor`, keyed by backend name. -/
def QHistory : Type := String → List QEntry

/-- Fresh predictor state (empty history). -/
def qEmpty : QHistory := fun _ => []

/-- Python's negative-start slice `l[-n:]`: the last `n` elements (all of `l`
when `l` is shorter than `n`). -/
def keepLast (n : ℕ) (l : List α) : List α := l.drop (l.length - n)

/-- `QueuePredictor.record_job_completion` (lines 34-50): append the sample
under the backend's key, then keep only the last 1000 entries.  `now` is the
`datetime.now().isoformat()` string. -/
def record_job_completion (h : QHistory) (now job_id backend_name : String)
    (queue_time run_time : ℚ) : QHistory :=
  fun b =>
    if b = backend_name then
      let updated := h backend_name ++ [⟨now, job_id, queue_time, run_time⟩]
      if updated.length > 1000 then keepLast 1000 updated else updated
    else h b

/-- The comprehension on line 58:
`[entry['run_time'] for entry in self.history[backend_name] if entry['run_time'] > 0]`. -/
def runTimes (l : List QEntry) : List ℚ :=
  (l.filter (fun e => decide (0 < e.run_time))).map (fun e => e.run_time)

/-- The comprehension on line 78:
`[entry['queue_time'] for entry in self.history[backend_name] if entry['queue_time'] > 0]`. -/
def queueTimes (l : List QEntry) : List ℚ :=
  (l.filter (fun e => decide (0 < e.queue_time))).map (fun e => e.queue_time)

/-- Python's `sum(l) / len(l)` (arithmetic mean; `0` on the empty list, which
the call sites guard against). -/
def listMean (l : List ℚ) : ℚ := l.sum / (l.length : ℚ)

/-- `QueuePredictor.estimate_start_time` (lines 52-70).  Returns the absolute
estimated start time `now + current_queue_length * avg_run_time` in seconds,
or `none` on the `return None` paths. -/
def estimate_start_time (h : QHistory) (now : ℚ) (job_id backend_name : String)
    (current_queue_length : ℤ) : Option ℚ :=
  if h backend_name = [] then none
  else
    let run_times := runTimes (h backend_name)
    if run_times = [] then none
    else
      let avg_run_time := run_times.sum / (run_times.length : ℚ)
      let estimated_wait := (current_queue_length : ℚ) * avg_run_time
      if estimated_wait > 0 then some (now + estimated_wait) else none

/-- Python's `int(q)`: truncation toward zero. -/
def int_trunc (q : ℚ) : ℤ := if 0 ≤ q then ⌊q⌋ else ⌈q⌉

/-- `QueuePredictor.estimate_average_wait` (lines 72-89). -/
def estimate_average_wait (h : QHistory) (backend_name : String) : String :=
  if h backend_name = [] then "Unknown"
  else
    let queue_times := queueTimes (h backend_name)
    if queue_times = [] then "Unknown"
    else
      let avg_queue_time := queue_times.sum / (queue_times.length : ℚ)
      if avg_queue_time < 60 then toString (int_trunc avg_queue_time) ++ " seconds"
      else if avg_queue_time < 3600 then toString (int_trunc (avg_queue_time / 60)) ++ " minutes"
      else toString (int_trunc (avg_queue_time / 3600)) ++ " hours"

/-- Spec-side formatting rule, written from the specification's words:
"formatted as seconds (<60s), minutes (<3600s), or hours, truncated (not
rounded) to an integer unit". -/
def wait_format_spec (avg : ℚ) : String :=
  if avg < 60 then toString (int_trunc avg) ++ " seconds"
  else if avg < 3600 then toString (int_trunc (avg / 60)) ++ " minutes"
  else toString (int_trunc (avg / 3600)) ++ " hours"

/-- One `record_job_completion(job_id, backend_name, queue_time, run_time)`
call, with the wall-clock timestamp it would store. -/
structure QOp where
  now : String
  job_id : String
  backend_name : String
  queue_time : ℚ
  run_time : ℚ
deriving DecidableEq

/-- Replay a sequence of `record_job_completion` calls. -/
def runQOps (h : QHistory) : List QOp → QHistory
  | [] => h
  | op :: rest =>
      runQOps (record_job_completion h op.now op.job_id op.backend_name
        op.queue_time op.run_time) rest

/-- The entry a given `record_job_completion` call stores. -/
def qEntryOf (op : QOp) : QEntry := ⟨op.now, op.job_id, op.queue_time, op.run_time⟩

/-- All samples a sequence of calls records for a given backend, in call
order. -/
def samplesFor (bn : String) (ops : List QOp) : List QEntry :=
  (ops.filter (fun op => op.backend_name == bn)).map qEntryOf

/-! ## Backend recommender (`utils/backend_recommender.py`) -/

/-- The value found under a snapshot's `qubits` key: the fetcher supplies
either an `int` or the string `"Unknown"` (see `backend_data_fetcher.py`,
`status_info.get("qubits", "Unknown")`).  `calculate_backend_score` and
`get_recommendation_reason` dispatch on `isinstance(qubits, int)`. -/
inductive QubitVal where
  | int (n : ℤ)
  | str (s : String)
deriving DecidableEq

/-- One value of `backend_status_cache`: a dict whose keys the recommender
reads with `.get`, so every field is optional, with the defaults the code
supplies at each `.get` call. -/
structure BackendInfo where
  operational : Option Bool
  pending_jobs : Option ℤ
  qubits : Option QubitVal
  service_type : Option String
  simulator : Option Bool
deriving DecidableEq

/-- `BackendRecommender.calculate_backend_score` (lines 34-52). -/
def calculate_backend_score (backend_name : String) (backend_info : BackendInfo) : ℚ :=
  let score : ℚ := 100
  let queue_length := backend_info.pending_jobs.getD 0
  let score := score - min ((queue_length : ℚ) * 2) 50
  let score := if backend_info.simulator.getD false then score + 10 else score
  let qubits := backend_info.qubits.getD (.int 0)
  let score :=
    match qubits with
    | .int n => score + min ((n : ℚ) / 5) 20
    | .str _ => score
  max 0 (min score 100)

/-- Spec-side scoring formula, written from the specification's words:
"score = 100 − min(pending_jobs × 2, 50) + (10 if simulator else 0) +
min(qubits / 5, 20), clamped to [0, 100]". -/
def score_spec (pending_jobs : ℤ) (simulator : Bool) (qubits : ℤ) : ℚ :=
  max 0 (min (100 - min ((pending_jobs : ℚ) * 2) 50
    + (if simulator then 10 else 0) + min ((qubits : ℚ) / 5) 20) 100)

/-- The `reasons` list built by `BackendRecommender.get_recommendation_reason`
(lines 54-73) before it is joined with `", "`. -/
def recommendation_reasons (backend_name : String) (backend_info : BackendInfo) :
    List String :=
  let queue_length := backend_info.pending_jobs.getD 0
  let reasons : List String :=
    if queue_length = 0 then ["No jobs in queue"]
    else if queue_length < 5 then ["Short queue"]
    else [toString queue_length ++ " jobs in queue"]
  let reasons :=
    if backend_info.simulator.getD false then reasons ++ ["Simulator (good for testing)"]
    else reasons
  let qubits := backend_info.qubits.getD (.int 0)
  match qubits with
  | .int n => if n > 10 then reasons ++ ["High qubit count"] else reasons
  | .str _ => reasons

/-- `BackendRecommender.get_recommendation_reason` (lines 54-73); the `score`
argument is accepted and ignored, as in the source. -/
def get_recommendation_reason (backend_name : String) (backend_info : BackendInfo)
    (score : ℚ) : String :=
  String.intercalate ", " (recommendation_reasons backend_name backend_info)

/-- One element of the list `get_recommendations` returns (lines 20-27). -/
structure Recommendation where
  name : String
  service_type : String
  qubits : QubitVal
  queue_length : ℤ
  score : ℚ
  recommendation_reason : String
deriving DecidableEq

/-- `BackendRecommender.get_recommendations` (lines 10-32).  The snapshot is an
insertion-ordered association list (Python dict iteration order);
`list.sort(reverse=True)` on the score key is a stable descending sort,
modelled by `mergeSort` with the comparator `b.score ≤ a.score`. -/
def get_recommendations (user_id : String)
    (backend_status_cache : List (String × BackendInfo)) : List Recommendation :=
  let recommendations :=
    (backend_status_cache.filter (fun p => p.2.operational.getD false)).map
      (fun p =>
        ⟨p.1, p.2.service_type.getD "unknown", p.2.qubits.getD (.str "Unknown"),
          p.2.pending_jobs.getD 0, calculate_backend_score p.1 p.2,
          get_recommendation_reason p.1 p.2 (calculate_backend_score p.1 p.2)⟩)
  let sorted := recommendations.mergeSort (fun a b => decide (b.score ≤ a.score))
  sorted.take 3

/-! ## Historical analyzer (`utils/historical_analyzer.py`)

The `self.history` dict is iterated over by `get_analytics`, so it is
modelled as an insertion-ordered association list, exactly mirroring Python
dict semantics (a new key is appended at the end, an existing key is updated
in place).  Event timestamps are modelled as `ℚ` seconds;
`datetime.fromisoformat` followed by subtraction and `total_seconds()`
becomes plain subtraction. -/

/-- The keys of an event's `data` mapping that `get_analytics` reads. -/
structure EventData where
  user_id : Option String
  status : Option String
  backend : Option String
deriving DecidableEq

/-- An event as stored by `record_job_event`:
`{'type': ..., 'timestamp': ..., 'data': ...}`. -/
structure JEvent where
  type : String
  timestamp : ℚ
  data : EventData
deriving DecidableEq

/-- Python `d[k] = d.get(k, []) ++ append` style update on an
insertion-ordered dict: `assocAppend m k x` appends `x` to the list under `k`,
creating the key at the end if absent (Python dict insertion order). -/
def assocAppend : List (String × List α) → String → α → List (String × List α)
  | [], k, x => [(k, [x])]
  | (k', l) :: rest, k, x =>
      if k' = k then (k', l ++ [x]) :: rest else (k', l) :: assocAppend rest k x

/-- Python `d.get(k, [])` on an association-list dict. -/
def dictGet : List (String × List α) → String → List α
  | [], _ => []
  | (k', v) :: rest, k => if k' = k then v else dictGet rest k

/-- `HistoricalAnalyzer.record_job_event` (lines 33-45): appends
`{'type': event_type, 'timestamp': timestamp or now, 'data': data or {}}`
to `self.history[job_id]`. -/
def record_job_event (history : List (String × List JEvent)) (job_id event_type : String)
    (timestamp : Option ℚ) (now : ℚ) (data : Option EventData) :
    List (String × List JEvent) :=
  assocAppend history job_id ⟨event_type, timestamp.getD now, data.getD ⟨none, none, none⟩⟩

/-- `HistoricalAnalyzer.get_job_timeline` (lines 47-49):
`self.history.get(job_id, [])`. -/
def get_job_timeline (history : List (String × List JEvent)) (job_id : String) :
    List JEvent :=
  dictGet history job_id

/-- Python `d[k] = d.get(k, 0) + 1` on an insertion-ordered counter dict. -/
def bumpCount : List (String × ℕ) → String → List (String × ℕ)
  | [], k => [(k, 1)]
  | (k', v) :: rest, k =>
      if k' = k then (k', v + 1) :: rest else (k', v) :: bumpCount rest k

/-- One element of `analytics['recent_activity']`. -/
structure RecentItem where
  job_id : String
  last_event : String
  timestamp : ℚ
deriving DecidableEq

/-- The `analytics` record `get_analytics` returns. -/
structure Analytics where
  total_jobs : ℕ
  jobs_by_status : List (String × ℕ)
  jobs_by_backend : List (String × ℕ)
  average_queue_time : ℚ
  success_rate : ℚ
  recent_activity : List RecentItem
deriving DecidableEq

/-- The Python exceptions the modelled code can raise. -/
inductive PyError where
  | nameError (name : String)
deriving DecidableEq

/-- Python truthiness of the `user_id` argument (`if user_id:`): `None` and
the empty string are falsy. -/
def userFilterActive : Option String → Bool
  | none => false
  | some u => u != ""

/-- The running state of `get_analytics`'s loop:
`(jobs_by_status, jobs_by_backend, completed_jobs, total_queue_time,
recent_activity)`. -/
def AnalyticsAcc : Type :=
  List (String × ℕ) × List (String × ℕ) × ℕ × ℚ × List RecentItem

/-- The body of `get_analytics`'s `for job_id, events in self.history.items()`
loop (lines 66-103). -/
def analyticsStep (user_id : Option String) (acc : AnalyticsAcc)
    (entry : String × List JEvent) : AnalyticsAcc :=
  let (byStatus, byBackend, completed, totalQ, recent) := acc
  let events := entry.2
  if userFilterActive user_id = true
      ∧ events.filter (fun e => e.data.user_id == user_id) = [] then acc
  else
    let status_events := events.filter (fun e => e.type == "status_change")
    let (byStatus, completed) :=
      match status_events.getLast? with
      | some last =>
          let latest_status := last.data.status.getD "unknown"
          (bumpCount byStatus latest_status,
            if latest_status = "COMPLETED" then completed + 1 else completed)
      | none => (byStatus, completed)
    let byBackend :=
      match (events.filter (fun e => e.type == "backend_assigned")).head? with
      | some first => bumpCount byBackend (first.data.backend.getD "unknown")
      | none => byBackend
    let totalQ :=
      match (events.filter (fun e => e.type == "queued")).head?,
          (events.filter (fun e => e.type == "running")).head? with
      | some qe, some se => totalQ + (se.timestamp - qe.timestamp)
      | _, _ => totalQ
    let recent :=
      match events.getLast? with
      | some last => recent ++ [⟨entry.1, last.type, last.timestamp⟩]
      | none => recent
    (byStatus, byBackend, completed, totalQ, recent)

/-- `HistoricalAnalyzer.get_analytics` (lines 51-114).  After the loop the
source runs, when `completed_jobs > 0`,
`analytics['average_queue_time'] = total_queue_time / completed_jobs if completed_jops > 0 else 0`
(line 108) — `completed_jops` is an undefined name, so that path raises
`NameError`; otherwise the zero-initialised counters are returned and
`recent_activity` is sorted by timestamp descending and truncated to 10. -/
def get_analytics (history : List (String × List JEvent)) (user_id : Option String) :
    Except PyError Analytics :=
  let res := history.foldl (analyticsStep user_id) ([], [], 0, 0, [])
  let (byStatus, byBackend, completed, _totalQ, recent) := res
  if completed > 0 then Except.error (.nameError "completed_jops")
  else
    Except.ok
      ⟨history.length, byStatus, byBackend, 0, 0,
        (recent.mergeSort (fun a b => decide (b.timestamp ≤ a.timestamp))).take 10⟩

/-- An operation on the `HistoricalAnalyzer` store: either a
`record_job_event` call (with the wall-clock time it would read) or one of the
two read-only operations. -/
inductive HOp where
  | record (job_id : String) (event_type : String) (timestamp : Option ℚ)
      (now : ℚ) (data : Option EventData)
  | getTimeline (job_id : String)
  | getAnalytics (user_id : Option String)

/-- Effect of one operation on the store: the reads leave it untouched. -/
def applyHOp (h : List (String × List JEvent)) : HOp → List (String × List JEvent)
  | .record j et ts now d => record_job_event h j et ts now d
  | .getTimeline _ => h
  | .getAnalytics _ => h

/-- Replay a sequence of store operations. -/
def runHOps (h : List (String × List JEvent)) : List HOp → List (String × List JEvent)
  | [] => h
  | op :: rest => runHOps (applyHOp h op) rest

/-- The event a given operation appends for job `j`, if any. -/
def eventOfRecord (op : HOp) (j : String) : Option JEvent :=
  match op with
  | .record j' et ts now d =>
      if j' = j then some ⟨et, ts.getD now, d.getD ⟨none, none, none⟩⟩ else none
  | _ => none

/-- All events a sequence of operations records for job `j`, in call order. -/
def recordedEvents (j : String) (ops : List HOp) : List JEvent :=
  ops.filterMap (fun op => eventOfRecord op j)

/-! ## Notification manager (`utils/notification_manager.py`) -/

/-- The keys of `job_info` that `send_slack_notification` reads; the Slack
webhook delivery itself is an outbound I/O side effect with no influence on
the stored log, so it is not part of the state transition. -/
structure JobInfo where
  job_id : Option String
  backend : Option String
  status : Option String
deriving DecidableEq

/-- One stored notification (lines 38-45). -/
structure PyNotification where
  user_id : String
  title : String
  message : String
  timestamp : String
  job_info : Option JobInfo
  read : Bool
deriving DecidableEq

/-- The `self.notifications` dict of `NotificationManager`, keyed by user id,
modelled as a total function defaulting to `[]`. -/
def NStore : Type := String → List PyNotification

/-- Fresh notification store. -/
def nEmpty : NStore := fun _ => []

/-- `NotificationManager.send_notification` (lines 36-57), state transition
part: append the notification (with `read = False`) under the user's key,
then keep only the last 100 entries.  `now` is the stored
`datetime.now().isoformat()` string. -/
def send_notification (st : NStore) (now user_id title message : String)
    (job_info : Option JobInfo) : NStore :=
  fun u =>
    if u = user_id then
      let updated := st user_id ++ [⟨user_id, title, message, now, job_info, false⟩]
      if updated.length > 100 then keepLast 100 updated else updated
    else st u

/-- One `send_notification(user_id, title, message, job_info)` call with the
wall-clock timestamp it would store. -/
structure NOp where
  now : String
  user_id : String
  title : String
  message : String
  job_info : Option JobInfo
deriving DecidableEq

/-- Replay a sequence of `send_notification` calls. -/
def runNOps (st : NStore) : List NOp → NStore
  | [] => st
  | op :: rest =>
      runNOps (send_notification st op.now op.user_id op.title op.message op.job_info) rest

/-- The notification a given `send_notification` call stores. -/
def nEntryOf (op : NOp) : PyNotification :=
  ⟨op.user_id, op.title, op.message, op.now, op.job_info, false⟩

/-- All notifications a sequence of calls sends to a given user, in call
order. -/
def notificationsFor (u : String) (ops : List NOp) : List PyNotification :=
  (ops.filter (fun op => op.user_id == u)).map nEntryOf

/-! ## Concrete states used by witnesses and counterexamples -/

/-- A predictor history with a single sample for backend `"ibm_q"`:
`queue_time = 5`, `run_time = 10`. -/
def exQH : QHistory :=
  fun b => if b = "ibm_q" then [⟨"t0", "j0", 5, 10⟩] else []

/-- A predictor history for backend `"A"` with two samples whose positive
queue times are 30 and 90 (mean 60). -/
def exWaitH : QHistory :=
  fun b => if b = "A" then [⟨"t0", "j0", 30, 10⟩, ⟨"t1", "j1", 90, 20⟩] else []

/-- A history containing one job whose single event is a `status_change` to
`COMPLETED` attributed to user `"u1"`. -/
def exJH : List (String × List JEvent) :=
  [("job1", [⟨"status_change", 0, ⟨some "u1", some "COMPLETED", none⟩⟩])]

/-- A two-backend snapshot: an operational simulator and an operational
hardware target. -/
def exCache : List (String × BackendInfo) :=
  [("sim", ⟨some true, some 0, some (.int 5), some "public", some true⟩),
   ("hw", ⟨some true, some 10, some (.int 20), some "public", some false⟩)]

/-! ## Helper lemmas -/

/-- The append-then-truncate step shared by `record_job_completion` (cap 1000)
and `send_notification` (cap 100). -/
def stepApp (N : ℕ) (l : List α) (x : α) : List α :=
  let updated := l ++ [x]
  if updated.length > N then keepLast N updated else updated

theorem keepLast_length (n : ℕ) (l : List α) : (keepLast n l).length = min n l.length := by
  simp only [keepLast, List.length_drop]
  omega

theorem keepLast_of_le {n : ℕ} {l : List α} (h : l.length ≤ n) : keepLast n l = l := by
  simp [keepLast, Nat.sub_eq_zero_of_le h]

theorem keepLast_append_keepLast (n : ℕ) (l s : List α) :
    keepLast n (keepLast n l ++ s) = keepLast n (l ++ s) := by
  have hk : l.length - n ≤ l.length := Nat.sub_le _ _
  unfold keepLast
  rw [← List.drop_append_of_le_length hk]
  simp only [List.drop_drop, List.length_drop, List.length_append]
  congr 1
  omega

theorem stepApp_eq_keepLast (N : ℕ) (l : List α) (x : α) :
    stepApp N l x = keepLast N (l ++ [x]) := by
  simp only [stepApp]
  split
  · rfl
  · next h => exact (keepLast_of_le (by omega)).symm

theorem foldl_stepApp (N : ℕ) (xs : List α) :
    ∀ l : List α, List.foldl (stepApp N) (keepLast N l) xs = keepLast N (l ++ xs) := by
  induction xs with
  | nil => intro l; simp
  | cons x xs ih =>
      intro l
      rw [List.foldl_cons, stepApp_eq_keepLast, keepLast_append_keepLast, ih (l ++ [x])]
      simp

theorem foldl_stepApp_nil (N : ℕ) (xs : List α) :
    List.foldl (stepApp N) [] xs = keepLast N xs := by
  have h := foldl_stepApp N xs []
  simpa [keepLast] using h

/-- A string obtained by appending a non-empty suffix `u` cannot equal a
string whose last character differs from `u`'s. -/
theorem append_ne_of_getLast (a u v : String) (hu : u.data ≠ [])
    (hne : u.data.getLast? ≠ v.data.getLast?) : a ++ u ≠ v := by
  intro he
  apply hne
  obtain ⟨c, hc⟩ : ∃ c, u.data.getLast? = some c := by
    cases hgl : u.data.getLast? with
    | none => exact absurd (List.getLast?_eq_none_iff.mp hgl) hu
    | some c => exact ⟨c, rfl⟩
  have h := congrArg (fun s : String => s.data.getLast?) he
  simp only [String.data_append, List.getLast?_append, hc, Option.or_some] at h
  rw [hc, ← h]

theorem record_job_completion_at_self (h : QHistory) (now jid bn : String) (qt rt : ℚ) :
    record_job_completion h now jid bn qt rt bn = stepApp 1000 (h bn) ⟨now, jid, qt, rt⟩ := by
  simp [record_job_completion, stepApp]

theorem record_job_completion_at_other (h : QHistory) (now jid bn : String) (qt rt : ℚ)
    {b : String} (hb : b ≠ bn) :
    record_job_completion h now jid bn qt rt b = h b := by
  simp [record_job_completion, hb]

theorem runQOps_at (ops : List QOp) :
    ∀ (h : QHistory) (bn : String),
      runQOps h ops bn = List.foldl (stepApp 1000) (h bn) (samplesFor bn ops) := by
  induction ops with
  | nil => intro h bn; rfl
  | cons op rest ih =>
      intro h bn
      by_cases hb : op.backend_name = bn
      · subst hb
        rw [runQOps, ih, record_job_completion_at_self]
        simp [samplesFor, qEntryOf, List.filter_cons]
      · rw [runQOps, ih,
          record_job_completion_at_other _ _ _ _ _ _ (fun hcontra => hb hcontra.symm)]
        simp [samplesFor, List.filter_cons, hb]

theorem runQOps_qEmpty (ops : List QOp) (bn : String) :
    runQOps qEmpty ops bn = keepLast 1000 (samplesFor bn ops) := by
  rw [runQOps_at]
  show List.foldl (stepApp 1000) [] (samplesFor bn ops) = _
  exact foldl_stepApp_nil 1000 _

theorem send_notification_at_self (st : NStore) (now uid title msg : String)
    (ji : Option JobInfo) :
    send_notification st now uid title msg ji uid =
      stepApp 100 (st uid) ⟨uid, title, msg, now, ji, false⟩ := by
  simp [send_notification, stepApp]

theorem send_notification_at_other (st : NStore) (now uid title msg : String)
    (ji : Option JobInfo) {u : String} (hu : u ≠ uid) :
    send_notification st now uid title msg ji u = st u := by
  simp [send_notification, hu]

theorem runNOps_at (ops : List NOp) :
    ∀ (st : NStore) (u : String),
      runNOps st ops u = List.foldl (stepApp 100) (st u) (notificationsFor u ops) := by
  induction ops with
  | nil => intro st u; rfl
  | cons op rest ih =>
      intro st u
      by_cases hu : op.user_id = u
      · subst hu
        rw [runNOps, ih, send_notification_at_self]
        simp [notificationsFor, nEntryOf, List.filter_cons]
      · rw [runNOps, ih,
          send_notification_at_other _ _ _ _ _ _ (fun hcontra => hu hcontra.symm)]
        simp [notificationsFor, List.filter_cons, hu]

theorem runNOps_nEmpty (ops : List NOp) (u : String) :
    runNOps nEmpty ops u = keepLast 100 (notificationsFor u ops) := by
  rw [runNOps_at]
  show List.foldl (stepApp 100) [] (notificationsFor u ops) = _
  exact foldl_stepApp_nil 100 _

theorem dictGet_assocAppend (m : List (String × List α)) (k k' : String) (x : α) :
    dictGet (assocAppend m k x) k' =
      if k = k' then dictGet m k' ++ [x] else dictGet m k' := by
  induction m with
  | nil => by_cases hk : k = k' <;> simp [assocAppend, dictGet, hk]
  | cons p rest ih =>
      obtain ⟨a, l⟩ := p
      simp only [assocAppend]
      by_cases hak : a = k
      · subst hak
        by_cases hk' : a = k' <;> simp [dictGet, hk']
      · simp only [if_neg hak, dictGet]
        by_cases hak' : a = k'
        · subst hak'
          have hka : k ≠ a := fun hcontra => hak hcontra.symm
          simp [dictGet, hka]
        · simp [dictGet, hak', ih]

theorem get_job_timeline_runHOps (ops : List HOp) :
    ∀ (h : List (String × List JEvent)) (j : String),
      get_job_timeline (runHOps h ops) j = get_job_timeline h j ++ recordedEvents j ops := by
  induction ops with
  | nil => intro h j; simp [runHOps, recordedEvents]
  | cons op rest ih =>
      intro h j
      rw [runHOps, ih]
      cases op with
      | record j' et ts now d =>
          simp only [applyHOp, record_job_event, recordedEvents, List.filterMap_cons,
            eventOfRecord, get_job_timeline, dictGet_assocAppend]
          by_cases hj : j' = j <;> simp [hj]
      | getTimeline j'' =>
          simp [applyHOp, recordedEvents, List.filterMap_cons, eventOfRecord]
      | getAnalytics uid =>
          simp [applyHOp, recordedEvents, List.filterMap_cons, eventOfRecord]

/-! ## Claims -/

/-- C1 (the code contradicts this claim): on a history holding one job whose
single event is a `status_change` to `COMPLETED` for user `"u1"`, the
analytics fallback `get_analytics(user_id)` raises
`NameError: name 'completed_jops' is not defined` (historical_analyzer.py
line 108) instead of returning an analytics record. -/
theorem C1_get_analytics_raises :
    get_analytics exJH (some "u1") = Except.error (PyError.nameError "completed_jops") :=
  rfl

/-- C3: over every sequence of store operations starting from the empty
history, `get_job_timeline` returns exactly the events recorded for that job
by `record_job_event`, in recording order, duplicates included — the
read-only operations (`get_job_timeline`, `get_analytics`) never remove or
reorder anything — and it returns `[]` for a job for which no event was ever
recorded (and never fails, being total). -/
theorem C3_get_job_timeline_exact (ops : List HOp) (j : String) :
    get_job_timeline (runHOps [] ops) j = recordedEvents j ops := by
  have h := get_job_timeline_runHOps ops [] j
  simpa [get_job_timeline, dictGet] using h

/-- C5 (the code contradicts this claim): called with the malformed input
`current_queue_length = -3` on a history with a positive-run-time sample,
`estimate_start_time` silently absorbs the input and returns `none` (the
estimated wait `-3 * 10` fails the `> 0` test); the function has no error
outcome at all, so no validation error is ever raised at the boundary. -/
theorem C5_negative_queue_silently_absorbed :
    estimate_start_time exQH 0 "j1" "ibm_q" (-3) = none
    ∧ exQH "ibm_q" ≠ [] ∧ runTimes (exQH "ibm_q") ≠ [] := by
  refine ⟨?_, by decide, by decide⟩
  simp [estimate_start_time, exQH, runTimes]

/-- C7: for every sequence of `record_job_completion` calls replayed from the
empty history, the stored sample list of any backend is exactly the suffix of
the recorded samples that keeps the most recent 1000 (oldest evicted first),
and its length is `min 1000 (number of samples recorded)` — so it never
exceeds 1000 and equals exactly 1000 once more than 1000 samples were
recorded. -/
theorem C7_sample_cap (ops : List QOp) (bn : String) :
    runQOps qEmpty ops bn =
      (samplesFor bn ops).drop ((samplesFor bn ops).length - 1000)
    ∧ (runQOps qEmpty ops bn).length = min 1000 (samplesFor bn ops).length := by
  refine ⟨runQOps_qEmpty ops bn, ?_⟩
  rw [runQOps_qEmpty, keepLast_length]

/-- C9: for every sequence of `send_notification` calls replayed from the
empty store, the stored notification log of any user is exactly the suffix of
the sent notifications that keeps the most recent 100 (oldest evicted first),
and its length is `min 100 (number sent)` — so it never exceeds 100. -/
theorem C9_notification_cap (ops : List NOp) (u : String) :
    runNOps nEmpty ops u =
      (notificationsFor u ops).drop ((notificationsFor u ops).length - 100)
    ∧ (runNOps nEmpty ops u).length = min 100 (notificationsFor u ops).length := by
  refine ⟨runNOps_nEmpty ops u, ?_⟩
  rw [runNOps_nEmpty, keepLast_length]

/-- C2 counterexample: with one recorded sample (`run_time = 10`) for backend
`"ibm_q"` and `current_queue_length = 0`, samples exist and the mean of the
positive run-time samples is `10 > 0`, yet `estimate_start_time` returns
`none` — the claim requires it to return
`now + current_queue_length * avg_run_time = some 0` here. -/
theorem C2_counterexample :
    estimate_start_time exQH 0 "j1" "ibm_q" 0 = none
    ∧ exQH "ibm_q" ≠ []
    ∧ listMean (runTimes (exQH "ibm_q")) = 10
    ∧ estimate_start_time exQH 0 "j1" "ibm_q" 0 ≠
        some ((0 : ℚ) + ((0 : ℤ) : ℚ) * listMean (runTimes (exQH "ibm_q"))) := by
  have hnone : estimate_start_time exQH 0 "j1" "ibm_q" 0 = none := by
    simp [estimate_start_time, exQH, runTimes]
  refine ⟨hnone, by decide, ?_, by simp [hnone]⟩
  simp [listMean, runTimes, exQH]

/-- C2 amended: `estimate_start_time` returns `none` iff no positive
`run_time` sample exists for the target (in particular when no samples exist
at all) or the product `current_queue_length * avg_run_time` is non-positive
(in particular whenever `current_queue_length = 0`); in every other case it
returns `now + current_queue_length * avg_run_time` where `avg_run_time` is
the arithmetic mean of the recorded positive run-time samples. -/
theorem C2_estimate_start_time_amended (h : QHistory) (now : ℚ) (jid bn : String)
    (q : ℤ) :
    (estimate_start_time h now jid bn q = none ↔
      runTimes (h bn) = [] ∨ (q : ℚ) * listMean (runTimes (h bn)) ≤ 0)
    ∧ ∀ t, estimate_start_time h now jid bn q = some t →
        t = now + (q : ℚ) * listMean (runTimes (h bn)) := by
  by_cases h0 : h bn = []
  · simp [estimate_start_time, h0, runTimes]
  · by_cases h1 : runTimes (h bn) = []
    · simp [estimate_start_time, h0, h1, listMean]
    · by_cases h2 : (q : ℚ) * ((runTimes (h bn)).sum / ((runTimes (h bn)).length : ℚ)) > 0
      · simp [estimate_start_time, h0, h1, h2, listMean, not_le.mpr h2]
      · simp [estimate_start_time, h0, h1, h2, listMean, not_lt.mp h2]

/-- C4: for every operational target whose `pending_jobs` and `qubits` fields
are integers, `calculate_backend_score` equals the spec formula
`100 − min(pending_jobs × 2, 50) + (10 if simulator else 0) + min(qubits / 5, 20)`
clamped to `[0, 100]`. -/
theorem C4_score_formula (name : String) (op : Option Bool) (stype : Option String)
    (sim : Option Bool) (p n : ℤ) :
    calculate_backend_score name ⟨op, some p, some (.int n), stype, sim⟩ =
      score_spec p (sim.getD false) n := by
  cases hsb : sim.getD false <;>
    simp [calculate_backend_score, score_spec, hsb]

/-- C10: for every target whose `qubits` field is not an integer (e.g. the
string `"Unknown"`), `calculate_backend_score` does not raise (it is total)
and computes the score with the qubit bonus omitted entirely, the result
still lies in `[0, 100]`, and the reasons list — hence the joined reason
string — never contains `"High qubit count"`. -/
theorem C10_non_integer_qubits (name : String) (op : Option Bool)
    (stype : Option String) (sim : Option Bool) (p : ℤ) (s : String) :
    calculate_backend_score name ⟨op, some p, some (.str s), stype, sim⟩ =
      max 0 (min (100 - min ((p : ℚ) * 2) 50 + (if sim.getD false then 10 else 0)) 100)
    ∧ 0 ≤ calculate_backend_score name ⟨op, some p, some (.str s), stype, sim⟩
    ∧ calculate_backend_score name ⟨op, some p, some (.str s), stype, sim⟩ ≤ 100
    ∧ "High qubit count" ∉ recommendation_reasons name ⟨op, some p, some (.str s), stype, sim⟩ := by
  have hjobs : ∀ a : String, a ++ " jobs in queue" ≠ "High qubit count" := fun a =>
    append_ne_of_getLast a " jobs in queue" "High qubit count" (by decide) (by decide)
  refine ⟨?_, ?_, ?_, ?_⟩
  · cases hsb : sim.getD false <;> simp [calculate_backend_score, hsb]
  · exact le_max_left 0 _
  · exact max_le (by norm_num) (min_le_right _ _)
  · have h1 : "High qubit count" ≠ "No jobs in queue" := by decide
    have h2 : "High qubit count" ≠ "Short queue" := by decide
    have h3 : "High qubit count" ≠ "Simulator (good for testing)" := by decide
    have h4 : "High qubit count" ≠ toString p ++ " jobs in queue" :=
      fun hcontra => hjobs (toString p) hcontra.symm
    cases hsb : sim.getD false <;>
      simp only [recommendation_reasons, hsb, Option.getD_some, Bool.false_eq_true,
        if_false, if_true] <;>
      split_ifs <;>
      simp_all [List.mem_append]

/-- C6: `estimate_average_wait` returns `"Unknown"` iff no recorded sample for
the target has a positive `queue_time`; otherwise it formats the arithmetic
mean of the positive samples per the spec's thresholds (seconds below 60,
minutes below 3600, hours otherwise), truncating the displayed number to an
integer unit. -/
theorem C6_estimate_average_wait_spec (h : QHistory) (bn : String) :
    (estimate_average_wait h bn = "Unknown" ↔ queueTimes (h bn) = [])
    ∧ (queueTimes (h bn) ≠ [] →
        estimate_average_wait h bn = wait_format_spec (listMean (queueTimes (h bn)))) := by
  have hsec : ∀ a : String, a ++ " seconds" ≠ "Unknown" := fun a =>
    append_ne_of_getLast a " seconds" "Unknown" (by decide) (by decide)
  have hmin : ∀ a : String, a ++ " minutes" ≠ "Unknown" := fun a =>
    append_ne_of_getLast a " minutes" "Unknown" (by decide) (by decide)
  have hhr : ∀ a : String, a ++ " hours" ≠ "Unknown" := fun a =>
    append_ne_of_getLast a " hours" "Unknown" (by decide) (by decide)
  by_cases h0 : h bn = []
  · have hq : queueTimes (h bn) = [] := by simp [queueTimes, h0]
    constructor
    · simp [estimate_average_wait, h0, hq, queueTimes]
    · intro hcontra; exact absurd hq hcontra
  · by_cases h1 : queueTimes (h bn) = []
    · constructor
      · simp [estimate_average_wait, h0, h1]
      · intro hcontra; exact absurd h1 hcontra
    · have heval : estimate_average_wait h bn =
          wait_format_spec (listMean (queueTimes (h bn))) := by
        simp only [estimate_average_wait, wait_format_spec, listMean,
          if_neg h0, if_neg h1]
      have hne : wait_format_spec (listMean (queueTimes (h bn))) ≠ "Unknown" := by
        unfold wait_format_spec
        split_ifs
        · exact hsec _
        · exact hmin _
        · exact hhr _
      exact ⟨by rw [heval]; exact ⟨fun hu => absurd hu hne, fun hq => absurd hq h1⟩,
        fun _ => heval⟩

/-- C6 witness: on `exWaitH`, backend `"A"` has positive queue-time samples 30
and 90, mean 60, formatted as `"1 minutes"`. -/
theorem C6_witness :
    queueTimes (exWaitH "A") ≠ []
    ∧ estimate_average_wait exWaitH "A" = wait_format_spec (listMean (queueTimes (exWaitH "A")))
    ∧ estimate_average_wait exWaitH "A" = "1 minutes" := by
  have hne : queueTimes (exWaitH "A") ≠ [] := by decide
  refine ⟨hne, (C6_estimate_average_wait_spec exWaitH "A").2 hne, ?_⟩
  simp only [estimate_average_wait, exWaitH]
  norm_num [queueTimes, int_trunc]
  decide

/-- Clamping to `[0, 100]` is monotone. -/
theorem clamp_mono {x y : ℚ} (h : x ≤ y) : max 0 (min x 100) ≤ max 0 (min y 100) :=
  max_le_max le_rfl (min_le_min h le_rfl)

/-- C8: the recommendation score is monotonically non-increasing in
`pending_jobs` (all other fields held equal) and monotonically non-decreasing
in integer `qubits` (all other fields held equal), and for every snapshot the
list returned by `get_recommendations` is sorted by score descending and has
length at most 3. -/
theorem C8_monotone_sorted_top3 :
    (∀ (name : String) (op : Option Bool) (stype : Option String) (sim : Option Bool)
        (qv : Option QubitVal) (p p' : ℤ), p ≤ p' →
        calculate_backend_score name ⟨op, some p', qv, stype, sim⟩ ≤
          calculate_backend_score name ⟨op, some p, qv, stype, sim⟩)
    ∧ (∀ (name : String) (op : Option Bool) (stype : Option String) (sim : Option Bool)
        (pj : Option ℤ) (n n' : ℤ), n ≤ n' →
        calculate_backend_score name ⟨op, pj, some (.int n), stype, sim⟩ ≤
          calculate_backend_score name ⟨op, pj, some (.int n'), stype, sim⟩)
    ∧ (∀ (uid : String) (cache : List (String × BackendInfo)),
        List.Sorted (fun a b : Recommendation => b.score ≤ a.score)
          (get_recommendations uid cache)
        ∧ (get_recommendations uid cache).length ≤ 3) := by
  refine ⟨?_, ?_, ?_⟩
  · intro name op stype sim qv p p' hp
    have hpq : (p : ℚ) ≤ (p' : ℚ) := by exact_mod_cast hp
    have hmono : min ((p : ℚ) * 2) 50 ≤ min ((p' : ℚ) * 2) 50 :=
      min_le_min (by linarith) le_rfl
    rcases qv with _ | qq
    · cases hsb : sim.getD false <;>
        simp only [calculate_backend_score, Option.getD_some, Option.getD_none, hsb,
          if_true, if_false, Bool.false_eq_true] <;>
      exact clamp_mono (by linarith)
    · rcases qq with n | s <;>
        cases hsb : sim.getD false <;>
        simp only [calculate_backend_score, Option.getD_some, Option.getD_none, hsb,
          if_true, if_false, Bool.false_eq_true] <;>
      exact clamp_mono (by linarith)
  · intro name op stype sim pj n n' hn
    have hnq : (n : ℚ) ≤ (n' : ℚ) := by exact_mod_cast hn
    have hmono : min ((n : ℚ) / 5) 20 ≤ min ((n' : ℚ) / 5) 20 :=
      min_le_min (by linarith) le_rfl
    cases hsb : sim.getD false <;>
      simp only [calculate_backend_score, Option.getD_some, Option.getD_none, hsb,
        if_true, if_false, Bool.false_eq_true] <;>
    exact clamp_mono (by linarith)
  · intro uid cache
    constructor
    · have htrans : ∀ a b c : Recommendation,
          (fun x y : Recommendation => decide (y.score ≤ x.score)) a b = true →
          (fun x y : Recommendation => decide (y.score ≤ x.score)) b c = true →
          (fun x y : Recommendation => decide (y.score ≤ x.score)) a c = true := by
        intro a b c hab hbc
        simp only [decide_eq_true_eq] at *
        exact le_trans hbc hab
      have htotal : ∀ a b : Recommendation,
          ((fun x y : Recommendation => decide (y.score ≤ x.score)) a b
            || (fun x y : Recommendation => decide (y.score ≤ x.score)) b a) = true := by
        intro a b
        simp only [Bool.or_eq_true, decide_eq_true_eq]
        exact le_total b.score a.score
      have hp := @List.sorted_mergeSort Recommendation
        (fun x y : Recommendation => decide (y.score ≤ x.score)) htrans htotal
        ((cache.filter (fun p => p.2.operational.getD false)).map
          (fun p =>
            ⟨p.1, p.2.service_type.getD "unknown", p.2.qubits.getD (.str "Unknown"),
              p.2.pending_jobs.getD 0, calculate_backend_score p.1 p.2,
              get_recommendation_reason p.1 p.2 (calculate_backend_score p.1 p.2)⟩))
      have hsorted := List.Pairwise.sublist (List.take_sublist 3 _) hp
      have himp := hsorted.imp (fun hab => of_decide_eq_true hab)
      simpa [get_recommendations, List.Sorted] using himp
    · simp only [get_recommendations, List.length_take]
      omega

/-- C8 witness: the monotonicity parts applied at concrete scores (queue 1
versus 3 pending jobs, 7 versus 9 qubits) and the ranking part applied to the
concrete two-backend snapshot `exCache`. -/
theorem C8_witness :
    calculate_backend_score "b" ⟨some true, some 3, some (.int 7), some "public", some false⟩ ≤
      calculate_backend_score "b" ⟨some true, some 1, some (.int 7), some "public", some false⟩
    ∧ calculate_backend_score "b" ⟨some true, some 1, some (.int 7), some "public", some false⟩ ≤
        calculate_backend_score "b" ⟨some true, some 1, some (.int 9), some "public", some false⟩
    ∧ List.Sorted (fun a b : Recommendation => b.score ≤ a.score)
        (get_recommendations "u" exCache)
    ∧ (get_recommendations "u" exCache).length ≤ 3 :=
  ⟨C8_monotone_sorted_top3.1 "b" (some true) (some "public") (some false)
      (some (.int 7)) 1 3 (by decide),
    C8_monotone_sorted_top3.2.1 "b" (some true) (some "public") (some false)
      (some 1) 7 9 (by decide),
    (C8_monotone_sorted_top3.2.2 "u" exCache).1,
    (C8_monotone_sorted_top3.2.2 "u" exCache).2⟩

/-- C2 witness: on `exQH` with `current_queue_length = 2` the amended claim
yields the concrete estimate `some 20 = some (now + 2 * 10)`. -/
theorem C2_witness :
    estimate_start_time exQH 0 "j1" "ibm_q" 2 = some 20
    ∧ (20 : ℚ) = 0 + ((2 : ℤ) : ℚ) * listMean (runTimes (exQH "ibm_q")) := by
  have hsome : estimate_start_time exQH 0 "j1" "ibm_q" 2 = some 20 := by
    simp [estimate_start_time, exQH, runTimes]
    norm_num
  exact ⟨hsome, (C2_estimate_start_time_amended exQH 0 "j1" "ibm_q" 2).2 20 hsome⟩
